import Mathlib

/-!
Verification of the `average` crate's streaming estimators.

Modelling conventions, used throughout:
* `f64` values are modelled as exact rationals `ℚ`.  All estimator state
  fields that are `f64` in the source become `ℚ`; `u64` counters become `ℕ`.
* Queries that return `f64::NAN` for an ill-defined sample are modelled as
  `Option ℚ`, with `none` standing for NaN.
* `f64::INFINITY` / `f64::NEG_INFINITY` (used only by `Min` / `Max`) are
  modelled by `WithTop ℚ` / `WithBot ℚ`.
* A Rust panic (a failing `unwrap` or `assert`) is modelled by an outer
  `Option`, with `none` standing for the panic.
-/

-- Restore (for this file) the default reducibility of rational arithmetic,
-- so that closed statements about the embedded estimators can be settled by
-- kernel reduction (`decide`).
attribute [local semireducible] Rat.add Rat.sub Rat.mul Rat.inv Rat.ofScientific

namespace Average

/-- State of `Mean` (src/moments/mean.rs): running mean `avg` and sample
size `n`. -/
structure Mean where
  avg : ℚ
  n : ℕ
deriving DecidableEq, Repr

/-- `Mean::new`. -/
def Mean.new : Mean := { avg := 0, n := 0 }

/-- `Mean::increment`. -/
def Mean.increment (s : Mean) : Mean := { s with n := s.n + 1 }

/-- `Mean::add_inner`. -/
def Mean.add_inner (s : Mean) (delta_n : ℚ) : Mean := { s with avg := s.avg + delta_n }

/-- `Mean::is_empty`. -/
def Mean.isEmpty (s : Mean) : Bool := s.n == 0

/-- `Mean::mean`: returns NaN (here `none`) for an empty sample. -/
def Mean.mean (s : Mean) : Option ℚ := if s.n > 0 then some s.avg else none

/-- `Mean::len`. -/
def Mean.len (s : Mean) : ℕ := s.n

/-- `<Mean as Estimate>::add`. -/
def Mean.add (s : Mean) (sample : ℚ) : Mean :=
  let s := s.increment
  let delta_n := (sample - s.avg) / (s.n : ℚ)
  s.add_inner delta_n

/-- `<Mean as Merge>::merge` (Chan et al.); the source computes the new mean
as the weighted average of the two means. -/
def Mean.merge (s other : Mean) : Mean :=
  if other.isEmpty then s
  else if s.isEmpty then other
  else
    let len_self : ℚ := (s.n : ℚ)
    let len_other : ℚ := (other.n : ℚ)
    let len_total := len_self + len_other
    { n := s.n + other.n
      avg := (len_self * s.avg + len_other * other.avg) / len_total }

/-- State of `Variance` (src/moments/variance.rs): a `Mean` plus the running
sum of squared deviations `sum_2`.  `MeanWithError` is an alias for this
type in the source. -/
structure Variance where
  avg : Mean
  sum_2 : ℚ
deriving DecidableEq, Repr

/-- `Variance::new`. -/
def Variance.new : Variance := { avg := Mean.new, sum_2 := 0 }

/-- `Variance::increment`. -/
def Variance.increment (s : Variance) : Variance := { s with avg := s.avg.increment }

/-- `Variance::add_inner`: reads the already-incremented count, updates the
mean and accumulates `delta_n^2 * n * (n - 1)`. -/
def Variance.add_inner (s : Variance) (delta_n : ℚ) : Variance :=
  let n : ℚ := (s.avg.len : ℚ)
  { avg := s.avg.add_inner delta_n
    sum_2 := s.sum_2 + delta_n * delta_n * n * (n - 1) }

/-- `Variance::is_empty`. -/
def Variance.isEmpty (s : Variance) : Bool := s.avg.isEmpty

/-- `Variance::mean`. -/
def Variance.mean (s : Variance) : Option ℚ := s.avg.mean

/-- `Variance::len`. -/
def Variance.len (s : Variance) : ℕ := s.avg.len

/-- `Variance::sample_variance`: NaN (`none`) for samples of size 1 or
less, otherwise `sum_2 / (n - 1)`. -/
def Variance.sample_variance (s : Variance) : Option ℚ :=
  if s.avg.len < 2 then none
  else some (s.sum_2 / ((s.avg.len - 1 : ℕ) : ℚ))

/-- `Variance::population_variance`: NaN (`none`) for an empty sample,
otherwise `sum_2 / n`. -/
def Variance.population_variance (s : Variance) : Option ℚ :=
  if s.avg.len = 0 then none
  else some (s.sum_2 / (s.avg.len : ℚ))

/-- `<Variance as Estimate>::add`.  The source computes
`sample - self.avg.mean()`; `mean()` is called after `increment`, so the
count is positive and `mean()` returns the (pre-update) field `avg.avg`. -/
def Variance.add (s : Variance) (sample : ℚ) : Variance :=
  let s := s.increment
  let delta_n := (sample - s.avg.avg) / (s.len : ℚ)
  s.add_inner delta_n

/-- `<Variance as Merge>::merge` (Chan et al.).  `delta` is computed from
the two means before `self.avg` is merged. -/
def Variance.merge (s other : Variance) : Variance :=
  if other.isEmpty then s
  else if s.isEmpty then other
  else
    let len_self : ℚ := (s.len : ℚ)
    let len_other : ℚ := (other.len : ℚ)
    let len_total := len_self + len_other
    let delta := other.avg.avg - s.avg.avg
    { avg := s.avg.merge other.avg
      sum_2 := s.sum_2 + other.sum_2 + delta * delta * len_self * len_other / len_total }

/-- State of `Skewness` (src/moments/skewness.rs): a `Variance`
(`MeanWithError`) plus the running sum of cubed deviations `sum_3`. -/
structure Skewness where
  avg : Variance
  sum_3 : ℚ
deriving DecidableEq, Repr

/-- `Skewness::new`. -/
def Skewness.new : Skewness := { avg := Variance.new, sum_3 := 0 }

/-- `Skewness::increment`. -/
def Skewness.increment (s : Skewness) : Skewness := { s with avg := s.avg.increment }

/-- `Skewness::len`. -/
def Skewness.len (s : Skewness) : ℕ := s.avg.len

/-- `Skewness::is_empty`. -/
def Skewness.isEmpty (s : Skewness) : Bool := s.avg.isEmpty

/-- `Skewness::add_inner` (Terriberry): reads the already-incremented count
and the pre-update `avg.sum_2`, then updates the lower layer. -/
def Skewness.add_inner (s : Skewness) (delta delta_n : ℚ) : Skewness :=
  let n : ℚ := (s.len : ℚ)
  let term := delta * delta_n * (n - 1)
  { sum_3 := s.sum_3 + term * delta_n * (n - 2) - 3 * delta_n * s.avg.sum_2
    avg := s.avg.add_inner delta_n }

/-- `<Skewness as Estimate>::add`: `delta` is taken from the pre-update
mean `self.avg.avg.avg`, then the count is incremented. -/
def Skewness.add (s : Skewness) (x : ℚ) : Skewness :=
  let delta := x - s.avg.avg.avg
  let s := s.increment
  let n : ℚ := (s.len : ℚ)
  s.add_inner delta (delta / n)

/-- `<Skewness as Merge>::merge`. -/
def Skewness.merge (s other : Skewness) : Skewness :=
  if other.isEmpty then s
  else if s.isEmpty then other
  else
    let len_self : ℚ := (s.len : ℚ)
    let len_other : ℚ := (other.len : ℚ)
    let len_total := len_self + len_other
    let delta := other.avg.avg.avg - s.avg.avg.avg
    let delta_n := delta / len_total
    { sum_3 := s.sum_3 + other.sum_3
        + delta * delta_n * delta_n * len_self * len_other * (len_self - len_other)
        + 3 * delta_n * (len_self * other.avg.sum_2 - len_other * s.avg.sum_2)
      avg := s.avg.merge other.avg }

/-- State of `Kurtosis` (src/moments/kurtosis.rs): a `Skewness` plus the
running sum of fourth-power deviations `sum_4`. -/
structure Kurtosis where
  avg : Skewness
  sum_4 : ℚ
deriving DecidableEq, Repr

/-- `Kurtosis::new`. -/
def Kurtosis.new : Kurtosis := { avg := Skewness.new, sum_4 := 0 }

/-- `Kurtosis::increment`. -/
def Kurtosis.increment (s : Kurtosis) : Kurtosis := { s with avg := s.avg.increment }

/-- `Kurtosis::len`. -/
def Kurtosis.len (s : Kurtosis) : ℕ := s.avg.len

/-- `Kurtosis::is_empty`. -/
def Kurtosis.isEmpty (s : Kurtosis) : Bool := s.avg.isEmpty

/-- `Kurtosis::add_inner` (Terriberry): reads the already-incremented count
and the pre-update `avg.avg.sum_2` and `avg.sum_3`, then updates the lower
layer. -/
def Kurtosis.add_inner (s : Kurtosis) (delta delta_n : ℚ) : Kurtosis :=
  let n : ℚ := (s.len : ℚ)
  let term := delta * delta_n * (n - 1)
  let delta_n_sq := delta_n * delta_n
  { sum_4 := s.sum_4 + term * delta_n_sq * (n * n - 3 * n + 3)
      + 6 * delta_n_sq * s.avg.avg.sum_2 - 4 * delta_n * s.avg.sum_3
    avg := s.avg.add_inner delta delta_n }

/-- `<Kurtosis as Estimate>::add`: `delta` is taken from the pre-update
mean `self.avg.avg.avg.avg`, then the count is incremented. -/
def Kurtosis.add (s : Kurtosis) (x : ℚ) : Kurtosis :=
  let delta := x - s.avg.avg.avg.avg
  let s := s.increment
  let n : ℚ := (s.len : ℚ)
  s.add_inner delta (delta / n)

/-- `<Kurtosis as Merge>::merge`. -/
def Kurtosis.merge (s other : Kurtosis) : Kurtosis :=
  if other.isEmpty then s
  else if s.isEmpty then other
  else
    let len_self : ℚ := (s.len : ℚ)
    let len_other : ℚ := (other.len : ℚ)
    let len_total := len_self + len_other
    let delta := other.avg.avg.avg.avg - s.avg.avg.avg.avg
    let delta_n := delta / len_total
    let delta_n_sq := delta_n * delta_n
    { sum_4 := s.sum_4 + other.sum_4
        + delta * delta_n * delta_n_sq * len_self * len_other
          * (len_self * len_self - len_self * len_other + len_other * len_other)
        + 6 * delta_n_sq * (len_self * len_self * other.avg.avg.sum_2
          + len_other * len_other * s.avg.avg.sum_2)
        + 4 * delta_n * (len_self * other.avg.sum_3 - len_other * s.avg.sum_3)
      avg := s.avg.merge other.avg }

/-- State of `Min` (src/minmax.rs): a single value, `f64::INFINITY` (here
`⊤` of `WithTop ℚ`) when no sample was added. -/
structure Min where
  x : WithTop ℚ
deriving DecidableEq

/-- `Min::new` = `Min::from_value(f64::INFINITY)`. -/
def Min.new : Min := { x := ⊤ }

/-- `<Min as Estimate>::add`: `self.x = self.x.min(x)`. -/
def Min.add (s : Min) (v : WithTop ℚ) : Min := { x := min s.x v }

/-- `<Min as Merge>::merge` is `self.add(other.x)`. -/
def Min.merge (s other : Min) : Min := s.add other.x

/-- State of `Max` (src/minmax.rs): a single value, `f64::NEG_INFINITY`
(here `⊥` of `WithBot ℚ`) when no sample was added. -/
structure Max where
  x : WithBot ℚ
deriving DecidableEq

/-- `Max::new` = `Max::from_value(f64::NEG_INFINITY)`. -/
def Max.new : Max := { x := ⊥ }

/-- `<Max as Estimate>::add`: `self.x = self.x.max(x)`. -/
def Max.add (s : Max) (v : WithBot ℚ) : Max := { x := max s.x v }

/-- `<Max as Merge>::merge` is `self.add(other.x)`. -/
def Max.merge (s other : Max) : Max := s.add other.x

/-- State of `WeightedMean` (src/weighted_mean.rs): sum of weights and the
weighted running mean (West's algorithm). -/
structure WeightedMean where
  weight_sum : ℚ
  weighted_avg : ℚ
deriving DecidableEq, Repr

/-- `WeightedMean::new`. -/
def WeightedMean.new : WeightedMean := { weight_sum := 0, weighted_avg := 0 }

/-- `WeightedMean::add` (West): the divisor is the updated weight sum. -/
def WeightedMean.add (s : WeightedMean) (sample weight : ℚ) : WeightedMean :=
  let weight_sum := s.weight_sum + weight
  let prev_avg := s.weighted_avg
  { weight_sum := weight_sum
    weighted_avg := prev_avg + (weight / weight_sum) * (sample - prev_avg) }

/-- `WeightedMean::is_empty`: true iff the weight sum is zero. -/
def WeightedMean.isEmpty (s : WeightedMean) : Bool := s.weight_sum == 0

/-- `<WeightedMean as Merge>::merge`. -/
def WeightedMean.merge (s other : WeightedMean) : WeightedMean :=
  if other.isEmpty then s
  else if s.isEmpty then other
  else
    let total_weight_sum := s.weight_sum + other.weight_sum
    { weighted_avg := (s.weight_sum * s.weighted_avg
        + other.weight_sum * other.weighted_avg) / total_weight_sum
      weight_sum := total_weight_sum }

/-- State of `WeightedMeanWithError` (src/weighted_mean.rs): sum of squared
weights, a `WeightedMean`, and an unweighted `MeanWithError` (`Variance`). -/
structure WeightedMeanWithError where
  weight_sum_sq : ℚ
  weighted_avg : WeightedMean
  unweighted_avg : Variance
deriving DecidableEq, Repr

/-- `WeightedMeanWithError::new`. -/
def WeightedMeanWithError.new : WeightedMeanWithError :=
  { weight_sum_sq := 0, weighted_avg := WeightedMean.new, unweighted_avg := Variance.new }

/-- `WeightedMeanWithError::add`. -/
def WeightedMeanWithError.add (s : WeightedMeanWithError) (sample weight : ℚ) :
    WeightedMeanWithError :=
  { weight_sum_sq := s.weight_sum_sq + weight * weight
    weighted_avg := s.weighted_avg.add sample weight
    unweighted_avg := s.unweighted_avg.add sample }

/-- `<WeightedMeanWithError as Merge>::merge`: component-wise, with no
emptiness guard of its own. -/
def WeightedMeanWithError.merge (s other : WeightedMeanWithError) : WeightedMeanWithError :=
  { weight_sum_sq := s.weight_sum_sq + other.weight_sum_sq
    weighted_avg := s.weighted_avg.merge other.weighted_avg
    unweighted_avg := s.unweighted_avg.merge other.unweighted_avg }

/-- State of `Covariance` (src/covariance.rs). -/
structure Covariance where
  avg_x : ℚ
  sum_x_2 : ℚ
  avg_y : ℚ
  sum_y_2 : ℚ
  sum_prod : ℚ
  n : ℕ
deriving DecidableEq, Repr

/-- `Covariance::new`. -/
def Covariance.new : Covariance :=
  { avg_x := 0, sum_x_2 := 0, avg_y := 0, sum_y_2 := 0, sum_prod := 0, n := 0 }

/-- `Covariance::add` (bivariate Welford): `sum_prod` uses the pre-update
`delta_x` and the post-update mean of `y`. -/
def Covariance.add (s : Covariance) (x y : ℚ) : Covariance :=
  let n' := s.n + 1
  let n : ℚ := (n' : ℚ)
  let delta_x := x - s.avg_x
  let delta_x_n := delta_x / n
  let delta_y_n := (y - s.avg_y) / n
  let avg_y := s.avg_y + delta_y_n
  { n := n'
    avg_x := s.avg_x + delta_x_n
    sum_x_2 := s.sum_x_2 + delta_x_n * delta_x_n * n * (n - 1)
    avg_y := avg_y
    sum_y_2 := s.sum_y_2 + delta_y_n * delta_y_n * n * (n - 1)
    sum_prod := s.sum_prod + delta_x * (y - avg_y) }

/-- `<Covariance as Merge>::merge`. -/
def Covariance.merge (s other : Covariance) : Covariance :=
  if other.n = 0 then s
  else if s.n = 0 then other
  else
    let delta_x := other.avg_x - s.avg_x
    let delta_y := other.avg_y - s.avg_y
    let len_self : ℚ := (s.n : ℚ)
    let len_other : ℚ := (other.n : ℚ)
    let len_total := len_self + len_other
    { avg_x := (len_self * s.avg_x + len_other * other.avg_x) / len_total
      sum_x_2 := s.sum_x_2 + other.sum_x_2 + delta_x * delta_x * len_self * len_other / len_total
      avg_y := (len_self * s.avg_y + len_other * other.avg_y) / len_total
      sum_y_2 := s.sum_y_2 + other.sum_y_2 + delta_y * delta_y * len_self * len_other / len_total
      sum_prod := s.sum_prod + other.sum_prod + delta_x * delta_y * len_self * len_other / len_total
      n := s.n + other.n }

/-!
## Generalized moments (`define_moments!`, src/moments/mod.rs)

The macro generates, for a compile-time `MAX_MOMENT`, a struct with the
count `n`, the mean `avg` and the array `m` of the moment sums m₂..m_P
(`m[p-2]` is the p-th central-moment sum times `n`).  We embed the state
with a list for `m`; the claims under verification only involve the query
functions `central_moment` and `standardized_moment`.
-/

/-- State generated by `define_moments!($name, $MAX_MOMENT)`: count, mean
and the moment sums `m` (index 0 holds m₂, so `m` has `MAX_MOMENT - 1`
entries). -/
structure Moments where
  n : ℕ
  avg : ℚ
  m : List ℚ
deriving DecidableEq, Repr

/-- `central_moment(p)`: 1 for p = 0, 0 for p = 1, otherwise `m[p-2] / n`,
NaN (`none`) for an empty sample.  The source indexes `self.m[p - 2]`,
which panics for `p > MAX_MOMENT`; here `getD` totalizes that read, and
the theorems about `central_moment` keep `p` within bounds. -/
def Moments.centralMoment (s : Moments) (p : ℕ) : Option ℚ :=
  match p with
  | 0 => some 1
  | 1 => some 0
  | _ => if s.n > 0 then some (s.m.getD (p - 2) 0 / (s.n : ℚ)) else none

/-- `standardized_moment(p)`.  The outer `Option` is the panic of the
`assert_ne!(variance, 0.)` in the `p ≥ 3` arm; the inner `Option` is NaN.
For p = 0 the source returns the count `n` as a float; for p = 1 it
returns 0, for p = 2 it returns 1; for p ≥ 3 it returns
`central_moment(p) / sqrt(variance)^p`.  (For a state with a negative
`variance` the source would produce NaN from `sqrt`; the theorems below
assume `0 ≤ variance`, which holds for every sample-built state.) -/
noncomputable def Moments.stdMoment (s : Moments) (p : ℕ) : Option (Option ℝ) :=
  match p with
  | 0 => some (some (s.n : ℝ))
  | 1 => some (some 0)
  | 2 => some (some 1)
  | q + 3 =>
    match s.centralMoment 2 with
    | none => some ((s.centralMoment (q + 3)).map (fun c : ℚ => (c : ℝ)))
    | some v =>
      if v = 0 then none
      else some ((s.centralMoment (q + 3)).map
        (fun c : ℚ => (c : ℝ) / (Real.sqrt (v : ℝ)) ^ (q + 3)))

/-- Follows the spec's words (claim C6): `standardized_moment(p) =
central_moment(p) / variance^(p/2)`, with the panic exactly when the
variance is 0 and `p ≥ 3`.  Used only to compare against the embedding
`Moments.stdMoment` of the source. -/
noncomputable def Moments.stdMomentSpec (s : Moments) (p : ℕ) : Option (Option ℝ) :=
  match s.centralMoment 2 with
  | none => some none
  | some v =>
    if v = 0 ∧ 3 ≤ p then none
    else some ((s.centralMoment p).map (fun c : ℚ => (c : ℝ) / (v : ℝ) ^ ((p : ℝ) / 2)))

/-- The `Moments4` state after feeding `[1, 2, 3, 4, 5]`, as in the
doc-test of `define_moments!`: count 5, mean 3, moment sums
m₂ = Σ(x-3)² = 10, m₃ = Σ(x-3)³ = 0, m₄ = Σ(x-3)⁴ = 34. -/
def moments4From1To5 : Moments := { n := 5, avg := 3, m := [10, 0, 34] }

/-!
## Histogram (src/histogram_const.rs and the identical macro version in
src/histogram.rs)

`Histogram::find` calls `self.range.binary_search_by(|p| p.partial_cmp(&x).unwrap())`.
We embed the branchless binary search of Rust's core library:

    let mut size = self.len();
    if size == 0 { return Err(0); }
    let mut base = 0;
    while size > 1 {
        let half = size / 2;
        let mid = base + half;
        let cmp = f(&self[mid]);
        base = if cmp == Greater { base } else { mid };
        size -= half;
    }
    let cmp = f(&self[base]);
    if cmp == Equal { Ok(base) } else { Err(base + (cmp == Less) as usize) }

The comparator result is an `Option Ordering` (`partial_cmp`); `none`
models the NaN comparison, whose `unwrap` panics, and is propagated as an
outer `none`.  The loop is written with a fuel argument so that it is
structurally recursive: each iteration strictly decreases `size`
(`size / 2 ≥ 1` when `size > 1`), so `fuel = size` makes the embedding
agree with the Rust loop, which is what `binarySearchBy` passes.
-/

/-- Result of `slice::binary_search_by`: `found i` is `Ok(i)`,
`notFound i` is `Err(i)` (insertion point). -/
inductive SearchResult where
  | found : ℕ → SearchResult
  | notFound : ℕ → SearchResult
deriving DecidableEq, Repr

/-- The `while size > 1` loop of Rust's branchless binary search; `none`
models a panicking comparator call. -/
def bsLoop (l : List ℚ) (f : ℚ → Option Ordering) : ℕ → ℕ → ℕ → Option ℕ
  | 0, base, _ => some base
  | fuel + 1, base, size =>
    if size ≤ 1 then some base
    else
      let half := size / 2
      let mid := base + half
      match f (l.getD mid 0) with
      | none => none
      | some cmp =>
        bsLoop l f fuel (if cmp = Ordering.gt then base else mid) (size - half)

/-- `slice::binary_search_by` (branchless version of Rust's core
library), with `none` for a panicking comparator. -/
def binarySearchBy (l : List ℚ) (f : ℚ → Option Ordering) : Option SearchResult :=
  if l.length = 0 then some (SearchResult.notFound 0)
  else
    match bsLoop l f l.length 0 l.length with
    | none => none
    | some base =>
      match f (l.getD base 0) with
      | none => none
      | some cmp =>
        some (if cmp = Ordering.eq then SearchResult.found base
          else SearchResult.notFound (base + if cmp = Ordering.lt then 1 else 0))

/-- `p.partial_cmp(&x)` for an edge `p` (never NaN in a validly
constructed histogram) and a sample `x` (`none` = NaN): `None` iff the
sample is NaN, otherwise `Less`/`Greater`/`Equal` by the numeric
comparison. -/
def cmpEdge (x : Option ℚ) (p : ℚ) : Option Ordering :=
  x.map (fun q =>
    if p < q then Ordering.lt else if q < p then Ordering.gt else Ordering.eq)

deriving instance DecidableEq for Except

/-- State of `Histogram<LEN>`: `LEN + 1` bin edges and `LEN` counters. -/
structure Histogram where
  range : List ℚ
  bin : List ℕ
deriving DecidableEq, Repr

/-- `Histogram::find`: binary-search the edges; `Ok(i)` with `i < LEN`
or `Err(i)` with `0 < i < LEN + 1` (giving bin `i - 1`) hit a bin, all
other outcomes are `SampleOutOfRangeError`.  The outer `none` is the
panic of the `unwrap` on a NaN comparison. -/
def Histogram.find (h : Histogram) (x : Option ℚ) : Option (Except Unit ℕ) :=
  match binarySearchBy h.range (cmpEdge x) with
  | none => none
  | some (SearchResult.found i) =>
    some (if i < h.bin.length then Except.ok i else Except.error ())
  | some (SearchResult.notFound i) =>
    some (if 0 < i ∧ i < h.bin.length + 1 then Except.ok (i - 1) else Except.error ())

/-- `Histogram::add`: increment the bin found by `find`, or report the
sample as out of range (leaving the bins unchanged). -/
def Histogram.add (h : Histogram) (x : Option ℚ) : Option (Except Unit Histogram) :=
  match h.find x with
  | none => none
  | some (Except.ok i) => some (Except.ok { h with bin := h.bin.set i (h.bin.getD i 0 + 1) })
  | some (Except.error _) => some (Except.error ())

/-- `Histogram::with_const_width(start, end)` for `LEN` bins. -/
def Histogram.withConstWidth (len : ℕ) (start stop : ℚ) : Histogram :=
  let step := (stop - start) / (len : ℚ)
  { range := (List.range (len + 1)).map (fun i => start + step * (i : ℚ))
    bin := List.replicate len 0 }

/-- Feed a list of samples through `Histogram::add`, unwrapping each
result (as the crate's tests do); `none` if any add fails or panics. -/
def Histogram.addSeq (h : Histogram) (xs : List ℚ) : Option Histogram :=
  xs.foldlM (fun hcur x =>
    match hcur.add (some x) with
    | some (Except.ok h2) => some h2
    | _ => none) h

/-!
## Quantile (P² algorithm, src/quantile.rs)

Five marker heights `q`, five integer marker positions `n`, five desired
positions `m` and their per-sample increments `dm`.  `float_ord::sort`
(ascending sort of non-NaN floats) is modelled by an insertion sort.
-/

/-- Insert into a sorted list (ascending). -/
def insertRat (x : ℚ) : List ℚ → List ℚ
  | [] => [x]
  | y :: ys => if x ≤ y then x :: y :: ys else y :: insertRat x ys

/-- `float_ord::sort`: ascending sort (insertion sort; on NaN-free input
the float total order is the numeric order). -/
def sortRats (l : List ℚ) : List ℚ := l.foldr insertRat []

/-- State of `Quantile`. -/
structure Quantile where
  q : List ℚ
  n : List ℤ
  m : List ℚ
  dm : List ℚ
deriving DecidableEq, Repr

/-- `Quantile::new(p)` (the source asserts `0 ≤ p ≤ 1`). -/
def Quantile.new (p : ℚ) : Quantile :=
  { q := List.replicate 5 0
    n := [1, 2, 3, 4, 0]
    m := [1, 1 + 2 * p, 1 + 4 * p, 3 + 2 * p, 5]
    dm := [0, p / 2, p, (1 + p) / 2, 1] }

/-- Marker height `self.q[i]`. -/
def Quantile.qGet (s : Quantile) (i : ℕ) : ℚ := s.q.getD i 0

/-- Marker position `self.n[i]`. -/
def Quantile.nGet (s : Quantile) (i : ℕ) : ℤ := s.n.getD i 0

/-- `Quantile::p`: the target probability, stored as `dm[2]`. -/
def Quantile.p (s : Quantile) : ℚ := s.dm.getD 2 0

/-- `Quantile::len`: the sample size `n[4]` (non-negative). -/
def Quantile.len (s : Quantile) : ℕ := (s.nGet 4).toNat

/-- `Quantile::is_empty`. -/
def Quantile.isEmpty (s : Quantile) : Bool := s.len == 0

/-- `Quantile::parabolic(i, d)` with `d = ±1`;
`s = i64::conv_nearest(d)` is the integer copy of `d`. -/
def Quantile.parabolic (s : Quantile) (i : ℕ) (d : ℚ) : ℚ :=
  let si : ℤ := if d < 0 then -1 else 1
  s.qGet i
    + d / ((s.nGet (i + 1) - s.nGet (i - 1) : ℤ) : ℚ)
      * (((s.nGet i - s.nGet (i - 1) + si : ℤ) : ℚ) * (s.qGet (i + 1) - s.qGet i)
          / ((s.nGet (i + 1) - s.nGet i : ℤ) : ℚ)
        + ((s.nGet (i + 1) - s.nGet i - si : ℤ) : ℚ) * (s.qGet i - s.qGet (i - 1))
          / ((s.nGet i - s.nGet (i - 1) : ℤ) : ℚ))

/-- `Quantile::linear(i, d)` with `d = ±1`. -/
def Quantile.linear (s : Quantile) (i : ℕ) (d : ℚ) : ℚ :=
  let sum := if d < 0 then i - 1 else i + 1
  s.qGet i + d * (s.qGet sum - s.qGet i) / ((s.nGet sum - s.nGet i : ℤ) : ℚ)

/-- One iteration of the marker-adjustment loop (`for i in 1..4`) of
`Quantile::add`: if marker `i` has drifted at least 1 from its desired
position in a permitted direction, recompute its height (parabolic, with
a linear fallback when monotonicity would break) and move its position
by `±1`.  `Float::signum(d)` is `±1` here since `|d| ≥ 1`. -/
def Quantile.adjust (s : Quantile) (i : ℕ) : Quantile :=
  let d : ℚ := s.m.getD i 0 - ((s.nGet i : ℤ) : ℚ)
  if (1 ≤ d ∧ 1 < s.nGet (i + 1) - s.nGet i) ∨ (d ≤ -1 ∧ s.nGet (i - 1) - s.nGet i < -1) then
    let ds : ℚ := if d < 0 then -1 else 1
    let q_new := s.parabolic i ds
    let s2 :=
      if s.qGet (i - 1) < q_new ∧ q_new < s.qGet (i + 1)
      then { s with q := s.q.set i q_new }
      else { s with q := s.q.set i (s.linear i ds) }
    let delta : ℤ := if ds < 0 then -1 else 1
    { s2 with n := s2.n.set i (s2.nGet i + delta) }
  else s

/-- `<Quantile as Estimate>::add`.  The first five samples fill the
marker-height buffer (sorted once the fifth arrives); afterwards the
P² update runs: locate the cell `k` (extending the extreme markers if
needed), shift the positions of markers `k..5` by one, advance the
desired positions by `dm`, then adjust the three interior markers. -/
def Quantile.add (s : Quantile) (x : ℚ) : Quantile :=
  if s.nGet 4 < 5 then
    let s1 := { s with q := s.q.set (s.nGet 4).toNat x, n := s.n.set 4 (s.nGet 4 + 1) }
    if s1.nGet 4 = 5 then { s1 with q := sortRats s1.q } else s1
  else
    let k : ℕ :=
      if x < s.qGet 0 then 0
      else if x < s.qGet 1 then 1
      else if x < s.qGet 2 then 2
      else if x < s.qGet 3 then 3
      else 4
    let s1 :=
      if x < s.qGet 0 then { s with q := s.q.set 0 x }
      else if s.qGet 4 < x then { s with q := s.q.set 4 x }
      else s
    let s2 := { s1 with
      n := (List.range 5).map (fun i => if k ≤ i then s1.nGet i + 1 else s1.nGet i)
      m := List.zipWith (fun a b => a + b) s1.m s1.dm }
    ((s2.adjust 1).adjust 2).adjust 3

/-- `Quantile::quantile`: the middle marker height once at least five
samples were seen; NaN (`none`) when empty; otherwise the sorted-buffer
fallback.  (The source sorts the copied `heights` buffer but then indexes
the unsorted `self.q`; this is embedded as written.) -/
def Quantile.quantile (s : Quantile) : Option ℚ :=
  if 5 ≤ s.len then some (s.qGet 2)
  else if s.len = 0 then none
  else
    let len := s.len
    let heights := sortRats (s.q.take len)
    let desired_index : ℚ := (len : ℚ) * s.p - 1
    let index : ℤ := ⌈desired_index⌉
    if desired_index = (index : ℚ) ∧ 0 ≤ index ∧ index.toNat < len - 1 then
      some (1 / 2 * s.qGet index.toNat + 1 / 2 * s.qGet (index.toNat + 1))
    else
      let index2 : ℤ := max index 0
      let _ := heights
      some (s.qGet (min index2.toNat (len - 1)))

/-- The fixed 20-observation dataset of the reference test in
src/quantile.rs. -/
def quantileObservations : List ℚ :=
  [0.02, 0.5, 0.74, 3.39, 0.83, 22.37, 10.15, 15.43, 38.62, 15.92,
   34.60, 10.28, 1.47, 0.40, 0.05, 11.39, 0.27, 0.42, 0.09, 11.37]

/-!
## Theorems
-/

/-- C1: feeding the four samples 1e9+4, 1e9+7, 1e9+13, 1e9+16 (in that
order) into a freshly-constructed `Variance` (`MeanWithError`) estimator
via `add` makes `sample_variance()` return exactly 30.  (For these inputs
every intermediate f64 value of the Welford recurrence — the running
means 1e9+4, 1e9+5.5, 1e9+8, 1e9+10, the deltas 3, 7.5, 8, the
quotients 1.5, 2.5, 2 and the sums 4.5, 42, 90 — is exactly
representable, so the exact-rational model computes the same values as
the f64 code and the result is exactly the f64 value 30.0.) -/
theorem c1_variance_exact_30 :
    (([10 ^ 9 + 4, 10 ^ 9 + 7, 10 ^ 9 + 13, 10 ^ 9 + 16] : List ℚ).foldl
      Variance.add Variance.new).sample_variance = some 30 := by
  decide

/-- C2: merging a non-empty `Mean` B into a non-empty `Mean` A leaves A
with count `n_a + n_b` and mean `(n_a·μ_a + n_b·μ_b)/(n_a + n_b)`, the
weighted-average form used by the source. -/
theorem c2_mean_merge_weighted_average (a b : Mean) (ha : a.n ≠ 0) (hb : b.n ≠ 0) :
    (a.merge b).n = a.n + b.n ∧
    (a.merge b).avg = ((a.n : ℚ) * a.avg + (b.n : ℚ) * b.avg) / ((a.n : ℚ) + (b.n : ℚ)) := by
  simp [Mean.merge, Mean.isEmpty, ha, hb]

/-- Witness for C2 at A = (mean 2, count 3), B = (mean 5, count 1). -/
theorem c2_witness :
    ((Mean.mk 2 3).merge (Mean.mk 5 1)).n = (Mean.mk 2 3).n + (Mean.mk 5 1).n ∧
    ((Mean.mk 2 3).merge (Mean.mk 5 1)).avg =
      (((Mean.mk 2 3).n : ℚ) * (Mean.mk 2 3).avg + ((Mean.mk 5 1).n : ℚ) * (Mean.mk 5 1).avg)
        / (((Mean.mk 2 3).n : ℚ) + ((Mean.mk 5 1).n : ℚ)) :=
  c2_mean_merge_weighted_average (Mean.mk 2 3) (Mean.mk 5 1) (by decide) (by decide)

/-- C4: for every `Variance` state, `mean()` is NaN iff the count is 0,
`sample_variance()` is NaN iff the count is < 2, `population_variance()`
is NaN iff the count is 0, and in the remaining cases the quotients
`sum_2/(n-1)` resp. `sum_2/n` are returned. -/
theorem c4_variance_nan_conditions (s : Variance) :
    (s.mean = none ↔ s.len = 0) ∧
    (s.sample_variance = none ↔ s.len < 2) ∧
    (s.population_variance = none ↔ s.len = 0) ∧
    (2 ≤ s.len → s.sample_variance = some (s.sum_2 / ((s.len : ℚ) - 1))) ∧
    (1 ≤ s.len → s.population_variance = some (s.sum_2 / (s.len : ℚ))) := by
  unfold Variance.mean Variance.sample_variance Variance.population_variance
    Variance.len Mean.mean Mean.len
  refine ⟨?_, ?_, ?_, ?_, ?_⟩
  · rcases Nat.eq_zero_or_pos s.avg.n with h | h
    · simp [h]
    · simp [h, h.ne']
  · by_cases h : s.avg.n < 2 <;> simp [h]
  · rcases Nat.eq_zero_or_pos s.avg.n with h | h
    · simp [h]
    · simp [h, h.ne']
  · intro h
    have h2 : ¬ s.avg.n < 2 := by omega
    have hc : ((s.avg.n - 1 : ℕ) : ℚ) = (s.avg.n : ℚ) - 1 :=
      Nat.cast_sub (by omega : 1 ≤ s.avg.n)
    simp [h2, hc]
  · intro h
    have h0 : ¬ s.avg.n = 0 := by omega
    simp [h0]

/-- Witness for C4 at the state (count 4, mean 10, sum of squares 27). -/
theorem c4_witness :
    ((Variance.mk (Mean.mk 10 4) 27).mean = none ↔ (Variance.mk (Mean.mk 10 4) 27).len = 0) ∧
    (Variance.mk (Mean.mk 10 4) 27).sample_variance =
      some ((Variance.mk (Mean.mk 10 4) 27).sum_2
        / (((Variance.mk (Mean.mk 10 4) 27).len : ℚ) - 1)) ∧
    (Variance.mk (Mean.mk 10 4) 27).population_variance =
      some ((Variance.mk (Mean.mk 10 4) 27).sum_2
        / ((Variance.mk (Mean.mk 10 4) 27).len : ℚ)) :=
  ⟨(c4_variance_nan_conditions (Variance.mk (Mean.mk 10 4) 27)).1,
   (c4_variance_nan_conditions (Variance.mk (Mean.mk 10 4) 27)).2.2.2.1 (by decide),
   (c4_variance_nan_conditions (Variance.mk (Mean.mk 10 4) 27)).2.2.2.2 (by decide)⟩

/-- C5 as stated is false: after three samples 0 and then `add 6` (so
n = 4, μ = 0, δ = 6, δₙ = 3/2, sum2 and sum3 both 0 before the update),
the sum-of-cubes accumulator increases by δ·δₙ²·(n−1)·(n−2) = 81,
not by the claimed δ·δₙ·(n−1)·(n−2) − 3·δₙ·sum2 = 54. -/
theorem c5_counterexample :
    ¬ (((([0, 0, 0] : List ℚ).foldl Skewness.add Skewness.new).add 6).sum_3 =
      (([0, 0, 0] : List ℚ).foldl Skewness.add Skewness.new).sum_3 +
        (6 - (([0, 0, 0] : List ℚ).foldl Skewness.add Skewness.new).avg.avg.avg)
          * ((6 - (([0, 0, 0] : List ℚ).foldl Skewness.add Skewness.new).avg.avg.avg) / 4)
          * (4 - 1) * (4 - 2)
        - 3 * ((6 - (([0, 0, 0] : List ℚ).foldl Skewness.add Skewness.new).avg.avg.avg) / 4)
          * (([0, 0, 0] : List ℚ).foldl Skewness.add Skewness.new).avg.sum_2) := by
  decide

/-- C5 amended: with post-increment count n, pre-update mean μ,
δ = x − μ and δₙ = δ/n, `Skewness::add` increases `sum_3` by exactly
δ·δₙ²·(n−1)·(n−2) − 3·δₙ·sum2_before_update, and `Kurtosis::add`
increases `sum_4` by exactly δ·δₙ³·(n−1)·(n²−3n+3) +
6·δₙ²·sum2_before_update − 4·δₙ·sum3_before_update (the claim's
formulas with the missing power of δₙ on the leading term restored). -/
theorem c5_terriberry_updates (s : Skewness) (t : Kurtosis) (x y : ℚ) :
    ((s.add x).sum_3 =
      s.sum_3
        + (x - s.avg.avg.avg) * ((x - s.avg.avg.avg) / ((s.len : ℚ) + 1)) ^ 2
          * (((s.len : ℚ) + 1) - 1) * (((s.len : ℚ) + 1) - 2)
        - 3 * ((x - s.avg.avg.avg) / ((s.len : ℚ) + 1)) * s.avg.sum_2) ∧
    ((t.add y).sum_4 =
      t.sum_4
        + (y - t.avg.avg.avg.avg) * ((y - t.avg.avg.avg.avg) / ((t.len : ℚ) + 1)) ^ 3
          * (((t.len : ℚ) + 1) - 1)
          * (((t.len : ℚ) + 1) ^ 2 - 3 * ((t.len : ℚ) + 1) + 3)
        + 6 * ((y - t.avg.avg.avg.avg) / ((t.len : ℚ) + 1)) ^ 2 * t.avg.avg.sum_2
        - 4 * ((y - t.avg.avg.avg.avg) / ((t.len : ℚ) + 1)) * t.avg.sum_3) := by
  constructor
  · simp only [Skewness.add, Skewness.increment, Skewness.add_inner, Skewness.len,
      Variance.increment, Variance.len, Mean.increment, Mean.len]
    push_cast
    ring
  · simp only [Kurtosis.add, Kurtosis.increment, Kurtosis.add_inner, Kurtosis.len,
      Skewness.increment, Skewness.len, Variance.increment, Variance.len,
      Mean.increment, Mean.len]
    push_cast
    ring

set_option maxRecDepth 40000 in
/-- C8: feeding the fixed 20-observation dataset into `Quantile::new(0.5)`
leaves the integer marker positions exactly `[1, 6, 10, 16, 20]`, the
desired positions exactly `[1, 5.75, 10.50, 15.25, 20]`, and
`quantile()` (here the exact rational 462262607/108864000 ≈
4.246239408803551) within 2e-15 of 4.2462394088036435. -/
theorem c8_quantile_reference :
    (quantileObservations.foldl Quantile.add (Quantile.new (1 / 2))).n = [1, 6, 10, 16, 20] ∧
    (quantileObservations.foldl Quantile.add (Quantile.new (1 / 2))).m =
      [1, 5.75, 10.50, 15.25, 20.0] ∧
    (quantileObservations.foldl Quantile.add (Quantile.new (1 / 2))).len = 20 ∧
    ∃ est : ℚ,
      (quantileObservations.foldl Quantile.add (Quantile.new (1 / 2))).quantile = some est ∧
      |est - 4.2462394088036435| ≤ 2e-15 :=
  ⟨by decide, by decide, by decide, 462262607 / 108864000, by decide, by decide⟩

/-- C3 as stated is false: the `Mean` struct value with count 0 but mean
field 1 (an estimator value of the type; such states are constructible
through the documented non-validating deserialization) is empty, so
merging it into a freshly-constructed `Mean` hits the
`other.is_empty()` guard and leaves the fresh estimator unchanged —
which is not bit-for-bit equal to it. -/
theorem c3_counterexample : Mean.new.merge (Mean.mk 1 0) ≠ Mean.mk 1 0 := by
  decide

lemma mean_merge_fresh_right (E : Mean) : E.merge Mean.new = E := by
  simp [Mean.merge, Mean.isEmpty, Mean.new]

lemma mean_merge_fresh_left (E : Mean) (h : E.n = 0 → E = Mean.new) :
    Mean.new.merge E = E := by
  by_cases h0 : E.n = 0
  · rw [h h0]; exact mean_merge_fresh_right Mean.new
  · simp [Mean.merge, Mean.isEmpty, Mean.new, h0]

lemma variance_merge_fresh_right (E : Variance) : E.merge Variance.new = E := by
  simp [Variance.merge, Variance.isEmpty, Mean.isEmpty, Variance.new, Mean.new]

lemma variance_merge_fresh_left (E : Variance) (h : E.avg.n = 0 → E = Variance.new) :
    Variance.new.merge E = E := by
  by_cases h0 : E.avg.n = 0
  · rw [h h0]; exact variance_merge_fresh_right Variance.new
  · simp [Variance.merge, Variance.isEmpty, Mean.isEmpty, Variance.new, Mean.new, h0]

lemma skewness_merge_fresh_right (E : Skewness) : E.merge Skewness.new = E := by
  simp [Skewness.merge, Skewness.isEmpty, Variance.isEmpty, Mean.isEmpty,
    Skewness.new, Variance.new, Mean.new]

lemma skewness_merge_fresh_left (E : Skewness) (h : E.avg.avg.n = 0 → E = Skewness.new) :
    Skewness.new.merge E = E := by
  by_cases h0 : E.avg.avg.n = 0
  · rw [h h0]; exact skewness_merge_fresh_right Skewness.new
  · simp [Skewness.merge, Skewness.isEmpty, Variance.isEmpty, Mean.isEmpty,
      Skewness.new, Variance.new, Mean.new, h0]

lemma kurtosis_merge_fresh_right (E : Kurtosis) : E.merge Kurtosis.new = E := by
  simp [Kurtosis.merge, Kurtosis.isEmpty, Skewness.isEmpty, Variance.isEmpty, Mean.isEmpty,
    Kurtosis.new, Skewness.new, Variance.new, Mean.new]

lemma kurtosis_merge_fresh_left (E : Kurtosis) (h : E.avg.avg.avg.n = 0 → E = Kurtosis.new) :
    Kurtosis.new.merge E = E := by
  by_cases h0 : E.avg.avg.avg.n = 0
  · rw [h h0]; exact kurtosis_merge_fresh_right Kurtosis.new
  · simp [Kurtosis.merge, Kurtosis.isEmpty, Skewness.isEmpty, Variance.isEmpty, Mean.isEmpty,
      Kurtosis.new, Skewness.new, Variance.new, Mean.new, h0]

lemma weightedMean_merge_fresh_right (E : WeightedMean) : E.merge WeightedMean.new = E := by
  simp [WeightedMean.merge, WeightedMean.isEmpty, WeightedMean.new]

lemma weightedMean_merge_fresh_left (E : WeightedMean)
    (h : E.weight_sum = 0 → E = WeightedMean.new) : WeightedMean.new.merge E = E := by
  by_cases h0 : E.weight_sum = 0
  · rw [h h0]; exact weightedMean_merge_fresh_right WeightedMean.new
  · simp [WeightedMean.merge, WeightedMean.isEmpty, WeightedMean.new, h0]

lemma covariance_merge_fresh_right (E : Covariance) : E.merge Covariance.new = E := by
  simp [Covariance.merge, Covariance.new]

lemma covariance_merge_fresh_left (E : Covariance) (h : E.n = 0 → E = Covariance.new) :
    Covariance.new.merge E = E := by
  by_cases h0 : E.n = 0
  · rw [h h0]; exact covariance_merge_fresh_right Covariance.new
  · simp [Covariance.merge, Covariance.new, h0]

/-- C3 amended: merging a freshly-constructed empty estimator into any
estimator value E leaves E unchanged, for each of the nine types with
`merge`; and merging E into a freshly-constructed empty estimator yields
exactly E provided every emptiness-guarded component of E that is empty
is itself in the freshly-constructed state (this invariant holds for all
states built through `new`/`add`/`merge`, and is exactly what the
counterexample shows cannot be dropped; for `Min` and `Max` both
directions hold for every E unconditionally). -/
theorem c3_merge_empty_identity :
    (∀ E : Mean, E.merge Mean.new = E ∧
      ((E.n = 0 → E = Mean.new) → Mean.new.merge E = E)) ∧
    (∀ E : Variance, E.merge Variance.new = E ∧
      ((E.avg.n = 0 → E = Variance.new) → Variance.new.merge E = E)) ∧
    (∀ E : Skewness, E.merge Skewness.new = E ∧
      ((E.avg.avg.n = 0 → E = Skewness.new) → Skewness.new.merge E = E)) ∧
    (∀ E : Kurtosis, E.merge Kurtosis.new = E ∧
      ((E.avg.avg.avg.n = 0 → E = Kurtosis.new) → Kurtosis.new.merge E = E)) ∧
    (∀ E : Min, E.merge Min.new = E ∧ Min.new.merge E = E) ∧
    (∀ E : Max, E.merge Max.new = E ∧ Max.new.merge E = E) ∧
    (∀ E : WeightedMean, E.merge WeightedMean.new = E ∧
      ((E.weight_sum = 0 → E = WeightedMean.new) → WeightedMean.new.merge E = E)) ∧
    (∀ E : WeightedMeanWithError, E.merge WeightedMeanWithError.new = E ∧
      (((E.weighted_avg.weight_sum = 0 → E.weighted_avg = WeightedMean.new) ∧
        (E.unweighted_avg.avg.n = 0 → E.unweighted_avg = Variance.new)) →
        WeightedMeanWithError.new.merge E = E)) ∧
    (∀ E : Covariance, E.merge Covariance.new = E ∧
      ((E.n = 0 → E = Covariance.new) → Covariance.new.merge E = E)) := by
  refine ⟨fun E => ⟨mean_merge_fresh_right E, mean_merge_fresh_left E⟩,
    fun E => ⟨variance_merge_fresh_right E, variance_merge_fresh_left E⟩,
    fun E => ⟨skewness_merge_fresh_right E, skewness_merge_fresh_left E⟩,
    fun E => ⟨kurtosis_merge_fresh_right E, kurtosis_merge_fresh_left E⟩,
    fun E => ⟨?_, ?_⟩, fun E => ⟨?_, ?_⟩,
    fun E => ⟨weightedMean_merge_fresh_right E, weightedMean_merge_fresh_left E⟩,
    fun E => ⟨?_, fun hinv => ?_⟩,
    fun E => ⟨covariance_merge_fresh_right E, covariance_merge_fresh_left E⟩⟩
  · cases E with
    | mk x => simp [Min.merge, Min.add, Min.new]
  · cases E with
    | mk x => simp [Min.merge, Min.add, Min.new]
  · cases E with
    | mk x => simp [Max.merge, Max.add, Max.new]
  · cases E with
    | mk x => simp [Max.merge, Max.add, Max.new]
  · cases E with
    | mk wss wavg u =>
      simp [WeightedMeanWithError.merge, WeightedMeanWithError.new,
        weightedMean_merge_fresh_right, variance_merge_fresh_right]
  · cases E with
    | mk wss wavg u =>
      simp only [WeightedMeanWithError.merge, WeightedMeanWithError.new]
      simp [weightedMean_merge_fresh_left _ hinv.1, variance_merge_fresh_left _ hinv.2]

/-- Witness for C3 at non-empty one-sample states of each guarded type and
arbitrary values of `Min`/`Max`. -/
theorem c3_witness :
    Mean.new.merge (Mean.new.add 7) = Mean.new.add 7 ∧
    Variance.new.merge (Variance.new.add 7) = Variance.new.add 7 ∧
    Skewness.new.merge (Skewness.new.add 7) = Skewness.new.add 7 ∧
    Kurtosis.new.merge (Kurtosis.new.add 7) = Kurtosis.new.add 7 ∧
    (Min.mk 5).merge Min.new = Min.mk 5 ∧
    Max.new.merge (Max.mk 5) = Max.mk 5 ∧
    WeightedMean.new.merge (WeightedMean.new.add 7 2) = WeightedMean.new.add 7 2 ∧
    WeightedMeanWithError.new.merge (WeightedMeanWithError.new.add 7 2) =
      WeightedMeanWithError.new.add 7 2 ∧
    Covariance.new.merge (Covariance.new.add 7 9) = Covariance.new.add 7 9 :=
  ⟨(c3_merge_empty_identity.1 (Mean.new.add 7)).2 (by decide),
   (c3_merge_empty_identity.2.1 (Variance.new.add 7)).2 (by decide),
   (c3_merge_empty_identity.2.2.1 (Skewness.new.add 7)).2 (by decide),
   (c3_merge_empty_identity.2.2.2.1 (Kurtosis.new.add 7)).2 (by decide),
   (c3_merge_empty_identity.2.2.2.2.1 (Min.mk 5)).1,
   (c3_merge_empty_identity.2.2.2.2.2.1 (Max.mk 5)).2,
   (c3_merge_empty_identity.2.2.2.2.2.2.1 (WeightedMean.new.add 7 2)).2 (by decide),
   (c3_merge_empty_identity.2.2.2.2.2.2.2.1 (WeightedMeanWithError.new.add 7 2)).2
     (by decide),
   (c3_merge_empty_identity.2.2.2.2.2.2.2.2 (Covariance.new.add 7 9)).2 (by decide)⟩

lemma Mean.add_avg (s : Mean) (x : ℚ) :
    (s.add x).avg = s.avg + (x - s.avg) / ((s.n : ℚ) + 1) ∧ (s.add x).n = s.n + 1 := by
  constructor
  · simp only [Mean.add, Mean.increment, Mean.add_inner]
    push_cast
    ring
  · rfl

lemma Mean.add_avg_bounds (s : Mean) (x a b : ℚ) (hax : a ≤ x) (hxb : x ≤ b)
    (ha : a ≤ s.avg) (hb : s.avg ≤ b) : a ≤ (s.add x).avg ∧ (s.add x).avg ≤ b := by
  have hn1 : (0 : ℚ) < (s.n : ℚ) + 1 := by positivity
  have hn0 : (0 : ℚ) ≤ (s.n : ℚ) := by positivity
  have key : (s.add x).avg = (s.avg * (s.n : ℚ) + x) / ((s.n : ℚ) + 1) := by
    rw [(s.add_avg x).1]
    field_simp
    ring
  constructor
  · rw [key, le_div_iff₀ hn1]
    nlinarith [mul_le_mul_of_nonneg_right ha hn0]
  · rw [key, div_le_iff₀ hn1]
    nlinarith [mul_le_mul_of_nonneg_right hb hn0]

lemma Mean.foldl_add_bounds (a b : ℚ) :
    ∀ (l : List ℚ) (s : Mean), (∀ y ∈ l, a ≤ y ∧ y ≤ b) →
      a ≤ s.avg → s.avg ≤ b →
      a ≤ (l.foldl Mean.add s).avg ∧ (l.foldl Mean.add s).avg ≤ b
  | [], _, _, ha, hb => ⟨ha, hb⟩
  | x :: xs, s, hm, ha, hb => by
    rw [List.foldl_cons]
    have hx := hm x (List.mem_cons_self x xs)
    have hstep := s.add_avg_bounds x a b hx.1 hx.2 ha hb
    exact Mean.foldl_add_bounds a b xs (s.add x)
      (fun y hy => hm y (List.mem_cons_of_mem x hy)) hstep.1 hstep.2

lemma Mean.foldl_add_len : ∀ (l : List ℚ) (s : Mean),
    (l.foldl Mean.add s).n = s.n + l.length
  | [], _ => rfl
  | x :: xs, s => by
    rw [List.foldl_cons, Mean.foldl_add_len xs (s.add x)]
    simp [Mean.add, Mean.increment, Mean.add_inner]
    omega

/-- C9: for every non-empty finite sequence of (non-NaN, finite) values,
the mean estimator built by folding `Mean::add` over the sequence reports
a mean between the minimum and the maximum of the sequence. -/
theorem c9_mean_bounds (l : List ℚ) (hne : l ≠ []) (mn mx μ : ℚ)
    (hmn : l.minimum = some mn) (hmx : l.maximum = some mx)
    (hμ : (l.foldl Mean.add Mean.new).mean = some μ) :
    mn ≤ μ ∧ μ ≤ mx := by
  have hbound : ∀ y ∈ l, mn ≤ y ∧ y ≤ mx := fun y hy =>
    ⟨List.minimum_le_of_mem hy hmn, List.le_maximum_of_mem hy hmx⟩
  rcases l with _ | ⟨x, xs⟩
  · exact absurd rfl hne
  · have hx := hbound x (List.mem_cons_self x xs)
    have hfirst : Mean.new.add x = Mean.mk x 1 := by
      simp [Mean.add, Mean.new, Mean.increment, Mean.add_inner]
    have hfold := Mean.foldl_add_bounds mn mx xs (Mean.new.add x)
      (fun y hy => hbound y (List.mem_cons_of_mem x hy))
      (by rw [hfirst]; exact hx.1) (by rw [hfirst]; exact hx.2)
    have hn : (List.foldl Mean.add (Mean.new.add x) xs).n = 1 + xs.length := by
      rw [Mean.foldl_add_len xs (Mean.new.add x), hfirst]
    have havg : ((x :: xs).foldl Mean.add Mean.new).mean =
        some (List.foldl Mean.add (Mean.new.add x) xs).avg := by
      rw [List.foldl_cons]
      simp [Mean.mean, hn]
    rw [havg] at hμ
    have hμ2 : (List.foldl Mean.add (Mean.new.add x) xs).avg = μ := by
      simpa using hμ
    rw [← hμ2]
    exact hfold

/-- Witness for C9 at the sequence `[3, 1, 2]`: minimum 1, maximum 3,
mean 2. -/
theorem c9_witness : (1 : ℚ) ≤ 2 ∧ (2 : ℚ) ≤ 3 :=
  c9_mean_bounds [3, 1, 2] (by decide) 1 3 2 (by decide) (by decide) (by decide)

lemma getD_sorted_mono {l : List ℚ} (hs : List.Sorted (· ≤ ·) l) {i j : ℕ}
    (hij : i ≤ j) (hj : j < l.length) : l.getD i 0 ≤ l.getD j 0 := by
  have hi : i < l.length := by omega
  rw [List.getD_eq_getElem?_getD, List.getD_eq_getElem?_getD,
    List.getElem?_eq_getElem hi, List.getElem?_eq_getElem hj]
  have := List.Sorted.rel_get_of_le hs (a := ⟨i, hi⟩) (b := ⟨j, hj⟩) hij
  simpa [List.get_eq_getElem] using this

/-- The comparator used by `Histogram::find` for a non-NaN sample. -/
def findCmp (x : ℚ) (p : ℚ) : Option Ordering :=
  some (if p < x then Ordering.lt else if x < p then Ordering.gt else Ordering.eq)

lemma cmpEdge_some (x p : ℚ) : cmpEdge (some x) p = findCmp x p := rfl

/-- Invariant of the branchless binary-search loop on a sorted list: it
returns an index `r` of the window such that every edge strictly below
`r` is `≤ x` and every edge strictly above `r` is `> x`. -/
lemma bsLoop_spec (l : List ℚ) (x : ℚ) (hs : List.Sorted (· ≤ ·) l) :
    ∀ (fuel size base : ℕ), 1 ≤ size → size ≤ fuel → base + size ≤ l.length →
      (∀ j, j < base → l.getD j 0 ≤ x) →
      (∀ j, base + size ≤ j → j < l.length → x < l.getD j 0) →
      ∃ r, bsLoop l (findCmp x) fuel base size = some r ∧
        base ≤ r ∧ r + 1 ≤ base + size ∧
        (∀ j, j < r → l.getD j 0 ≤ x) ∧
        (∀ j, r < j → j < l.length → x < l.getD j 0) := by
  intro fuel
  induction fuel with
  | zero => intro size base h1 h2 _ _ _; omega
  | succ fuel ih =>
    intro size base h1 h2 h3 h4 h5
    by_cases hsz : size ≤ 1
    · have hsz1 : size = 1 := by omega
      refine ⟨base, ?_, le_refl base, by omega, h4, ?_⟩
      · simp [bsLoop, hsz]
      · intro j hj hjl
        exact h5 j (by omega) hjl
    · have h2f : size / 2 ≥ 1 := by omega
      have hmid : base + size / 2 < l.length := by omega
      rcases lt_trichotomy (l.getD (base + size / 2) 0) x with hlt | heq | hgt
      · -- l[mid] < x : Less, base moves to mid
        have hstep : bsLoop l (findCmp x) (fuel + 1) base size =
            bsLoop l (findCmp x) fuel (base + size / 2) (size - size / 2) := by
          simp only [bsLoop, findCmp]
          rw [if_neg hsz, if_pos hlt]
          rfl
        obtain ⟨r, hr, hr1, hr2, hr3, hr4⟩ := ih (size - size / 2) (base + size / 2)
          (by omega) (by omega) (by omega)
          (fun j hj => by
            rcases Nat.lt_or_ge j base with hcase | hcase
            · exact h4 j hcase
            · exact le_trans (getD_sorted_mono hs (by omega) hmid) (le_of_lt hlt))
          (fun j hj hjl => h5 j (by omega) hjl)
        exact ⟨r, by rw [hstep]; exact hr, by omega, by omega, hr3, hr4⟩
      · -- l[mid] = x : Equal, base moves to mid
        have hstep : bsLoop l (findCmp x) (fuel + 1) base size =
            bsLoop l (findCmp x) fuel (base + size / 2) (size - size / 2) := by
          simp only [bsLoop, findCmp]
          rw [if_neg hsz, heq, if_neg (lt_irrefl x), if_neg (lt_irrefl x)]
          rfl
        obtain ⟨r, hr, hr1, hr2, hr3, hr4⟩ := ih (size - size / 2) (base + size / 2)
          (by omega) (by omega) (by omega)
          (fun j hj => by
            rcases Nat.lt_or_ge j base with hcase | hcase
            · exact h4 j hcase
            · exact le_trans (getD_sorted_mono hs (by omega) hmid) (le_of_eq heq))
          (fun j hj hjl => h5 j (by omega) hjl)
        exact ⟨r, by rw [hstep]; exact hr, by omega, by omega, hr3, hr4⟩
      · -- x < l[mid] : Greater, base stays
        have hstep : bsLoop l (findCmp x) (fuel + 1) base size =
            bsLoop l (findCmp x) fuel base (size - size / 2) := by
          simp only [bsLoop, findCmp]
          rw [if_neg hsz, if_neg (not_lt_of_gt hgt), if_pos hgt]
          rfl
        obtain ⟨r, hr, hr1, hr2, hr3, hr4⟩ := ih (size - size / 2) base
          (by omega) (by omega) (by omega) h4
          (fun j hj hjl => by
            rcases Nat.lt_or_ge j (base + size) with hcase | hcase
            · exact lt_of_lt_of_le hgt (getD_sorted_mono hs (by omega) hjl)
            · exact h5 j hcase hjl)
        exact ⟨r, by rw [hstep]; exact hr, hr1, by omega, hr3, hr4⟩

/-- Result of the full `binary_search_by` on a sorted list, in terms of
the pivot index delivered by the loop. -/
lemma binarySearchBy_eq (l : List ℚ) (x : ℚ) (r : ℕ) (hl1 : 1 ≤ l.length)
    (hr : bsLoop l (findCmp x) l.length 0 l.length = some r) :
    binarySearchBy l (findCmp x) =
      some (if l.getD r 0 < x then SearchResult.notFound (r + 1)
        else if x < l.getD r 0 then SearchResult.notFound r
        else SearchResult.found r) := by
  unfold binarySearchBy
  rw [if_neg (by omega), hr]
  show (match findCmp x (l.getD r 0) with
    | none => none
    | some cmp =>
      some (if cmp = Ordering.eq then SearchResult.found r
        else SearchResult.notFound (r + if cmp = Ordering.lt then 1 else 0))) = _
  simp only [findCmp]
  rcases lt_trichotomy (l.getD r 0) x with hlt | heq | hgt
  · rw [if_pos hlt, if_pos hlt]
    rfl
  · rw [heq]
    simp only [if_neg (lt_irrefl x)]
    rfl
  · simp only [if_neg (not_lt_of_gt hgt), if_pos hgt]
    rfl

/-- Behaviour of `Histogram::find` on a valid histogram and a non-NaN
sample, in terms of the pivot index `r` delivered by the binary search:
everything strictly below `r` is `≤ x`, everything strictly above is
`> x`, and `find` post-processes the comparison of `x` with edge `r`. -/
lemma find_spec (h : Histogram) (hlen : h.range.length = h.bin.length + 1)
    (hs : List.Sorted (· ≤ ·) h.range) (x : ℚ) :
    ∃ r, r < h.range.length ∧
      (∀ j, j < r → h.range.getD j 0 ≤ x) ∧
      (∀ j, r < j → j < h.range.length → x < h.range.getD j 0) ∧
      ((h.range.getD r 0 = x ∧
          h.find (some x) =
            some (if r < h.bin.length then Except.ok r else Except.error ())) ∨
        (h.range.getD r 0 < x ∧
          h.find (some x) =
            some (if r + 1 < h.bin.length + 1 then Except.ok r else Except.error ())) ∨
        (x < h.range.getD r 0 ∧
          h.find (some x) =
            some (if 0 < r then Except.ok (r - 1) else Except.error ()))) := by
  have hl1 : 1 ≤ h.range.length := by omega
  obtain ⟨r, hr, hr1, hr2, hr3, hr4⟩ := bsLoop_spec h.range x hs
    h.range.length h.range.length 0 (by omega) (le_refl _) (by omega)
    (fun j hj => absurd hj (Nat.not_lt_zero j))
    (fun j hj hjl => by omega)
  have hcf : cmpEdge (some x) = findCmp x := funext (cmpEdge_some x)
  have hbs := binarySearchBy_eq h.range x r hl1 hr
  have hrlen : r < h.range.length := by omega
  refine ⟨r, hrlen, hr3, hr4, ?_⟩
  rcases lt_trichotomy (h.range.getD r 0) x with hlt | heq | hgt
  · refine Or.inr (Or.inl ⟨hlt, ?_⟩)
    rw [if_pos hlt] at hbs
    unfold Histogram.find
    rw [hcf, hbs]
    show some (if 0 < r + 1 ∧ r + 1 < h.bin.length + 1 then Except.ok (r + 1 - 1)
      else Except.error ()) = _
    have hiff : (0 < r + 1 ∧ r + 1 < h.bin.length + 1) ↔ r + 1 < h.bin.length + 1 := by
      omega
    by_cases hc : r + 1 < h.bin.length + 1
    · rw [if_pos (hiff.mpr hc), if_pos hc, Nat.add_sub_cancel]
    · rw [if_neg (fun hand => hc (hiff.mp hand)), if_neg hc]
  · refine Or.inl ⟨heq, ?_⟩
    rw [if_neg (by rw [heq]; exact lt_irrefl x), if_neg (by rw [heq]; exact lt_irrefl x)] at hbs
    unfold Histogram.find
    rw [hcf, hbs]
  · refine Or.inr (Or.inr ⟨hgt, ?_⟩)
    rw [if_neg (not_lt_of_gt hgt), if_pos hgt] at hbs
    unfold Histogram.find
    rw [hcf, hbs]
    show some (if 0 < r ∧ r < h.bin.length + 1 then Except.ok (r - 1)
      else Except.error ()) = _
    have hiff : (0 < r ∧ r < h.bin.length + 1) ↔ 0 < r := by omega
    by_cases hc : 0 < r
    · rw [if_pos (hiff.mpr hc), if_pos hc]
    · rw [if_neg (fun hand => hc (hiff.mp hand)), if_neg hc]

set_option maxRecDepth 200000 in
/-- C7: on a validly-constructed histogram (sorted, non-NaN edges, one
more edge than bins) and a non-NaN sample x, `add(x)` reports the
out-of-range error exactly when x is below the first edge or at/above
the last edge; otherwise it increments exactly the one bin whose
half-open range [edge i, edge (i+1)) contains x (such a bin is unique),
leaving all other bins unchanged.  In particular the 10-bin histogram
over [0, 100) fed the integers 0..99 ends with all ten bin counts equal
to 10, and adding -0.1 or 100.0 both fail with the out-of-range error. -/
theorem c7_histogram_add (h : Histogram) (hlen : h.range.length = h.bin.length + 1)
    (hsort : List.Sorted (· ≤ ·) h.range) (x : ℚ) :
    (h.add (some x) = some (Except.error ()) ↔
      (x < h.range.getD 0 0 ∨ h.range.getD h.bin.length 0 ≤ x)) ∧
    (∀ i j, i < h.bin.length → h.range.getD i 0 ≤ x → x < h.range.getD (i + 1) 0 →
      j < h.bin.length → h.range.getD j 0 ≤ x → x < h.range.getD (j + 1) 0 → i = j) ∧
    (∀ i, i < h.bin.length → h.range.getD i 0 ≤ x → x < h.range.getD (i + 1) 0 →
      h.add (some x) = some (Except.ok { h with bin := h.bin.set i (h.bin.getD i 0 + 1) })) ∧
    (Histogram.addSeq (Histogram.withConstWidth 10 0 100)
        ((List.range 100).map (fun k => (k : ℚ))) =
      some { range := (Histogram.withConstWidth 10 0 100).range,
             bin := List.replicate 10 10 } ∧
      (Histogram.withConstWidth 10 0 100).add (some (-1 / 10)) = some (Except.error ()) ∧
      (Histogram.withConstWidth 10 0 100).add (some 100) = some (Except.error ())) := by
  obtain ⟨r, hrlen, hbelow, habove, hcases⟩ := find_spec h hlen hsort x
  have huniq : ∀ i j, i < h.bin.length → h.range.getD i 0 ≤ x → x < h.range.getD (i + 1) 0 →
      j < h.bin.length → h.range.getD j 0 ≤ x → x < h.range.getD (j + 1) 0 → i = j := by
    intro i j hi hei hei1 hj hej hej1
    rcases lt_trichotomy i j with hij | hij | hij
    · exact absurd (lt_of_lt_of_le hei1 (getD_sorted_mono hsort (by omega) (by omega)))
        (not_lt_of_le hej)
    · exact hij
    · exact absurd (lt_of_lt_of_le hej1 (getD_sorted_mono hsort (by omega) (by omega)))
        (not_lt_of_le hei)
  have hok : ∀ i, i < h.bin.length → h.range.getD i 0 ≤ x → x < h.range.getD (i + 1) 0 →
      h.add (some x) = some (Except.ok { h with bin := h.bin.set i (h.bin.getD i 0 + 1) }) := by
    intro i hi hei hei1
    have hir : i ≤ r := by
      by_contra hc
      push_neg at hc
      exact absurd (habove i hc (by omega)) (not_lt_of_le hei)
    have hri : r ≤ i + 1 := by
      by_contra hc
      push_neg at hc
      exact absurd (hbelow (i + 1) hc) (not_le_of_lt hei1)
    rcases hcases with ⟨heq, hf⟩ | ⟨hlt, hf⟩ | ⟨hgt, hf⟩
    · have hrneq : r ≠ i + 1 := by
        intro hcontra
        rw [hcontra] at heq
        exact absurd heq (ne_of_gt hei1)
      have hreq : r = i := by omega
      rw [hreq, if_pos hi] at hf
      simp [Histogram.add, hf]
    · have hrneq : r ≠ i + 1 := by
        intro hcontra
        rw [hcontra] at hlt
        exact absurd hlt (not_lt_of_gt hei1)
      have hreq : r = i := by omega
      rw [hreq, if_pos (by omega : i + 1 < h.bin.length + 1)] at hf
      simp [Histogram.add, hf]
    · have hrneq : r ≠ i := by
        intro hcontra
        rw [hcontra] at hgt
        exact absurd hgt (not_lt_of_le hei)
      have hreq : r = i + 1 := by omega
      rw [hreq, if_pos (by omega : 0 < i + 1)] at hf
      simp only [Nat.add_sub_cancel] at hf
      simp [Histogram.add, hf]
  refine ⟨?_, huniq, hok, by decide, by decide, by decide⟩
  constructor
  · intro herr
    by_contra hout
    push_neg at hout
    obtain ⟨h0, hL⟩ := hout
    rcases le_or_lt (h.range.getD r 0) x with hle | hgt2
    · have hrLEN : r < h.bin.length := by
        by_contra hc
        push_neg at hc
        have hreq : r = h.bin.length := by omega
        rw [hreq] at hle
        exact absurd hle (not_le_of_lt hL)
      have hcontain : x < h.range.getD (r + 1) 0 := habove (r + 1) (by omega) (by omega)
      have := hok r hrLEN hle hcontain
      rw [herr] at this
      simp at this
    · have hr0 : 0 < r := by
        by_contra hc
        push_neg at hc
        have hreq : r = 0 := by omega
        rw [hreq] at hgt2
        exact absurd hgt2 (not_lt_of_le h0)
      have he1 : h.range.getD (r - 1) 0 ≤ x := hbelow (r - 1) (by omega)
      have he2 : x < h.range.getD (r - 1 + 1) 0 := by
        rw [Nat.sub_add_cancel (by omega : 1 ≤ r)]
        exact hgt2
      have := hok (r - 1) (by omega) he1 he2
      rw [herr] at this
      simp at this
  · intro hout
    rcases hout with hb | ha
    · have hr0 : r = 0 := by
        by_contra hc
        exact absurd (hbelow 0 (by omega)) (not_le_of_lt hb)
      rcases hcases with ⟨heq, hf⟩ | ⟨hlt, hf⟩ | ⟨hgt, hf⟩
      · rw [hr0] at heq
        exact absurd heq (ne_of_gt hb)
      · rw [hr0] at hlt
        exact absurd hlt (not_lt_of_gt hb)
      · rw [hr0, if_neg (lt_irrefl 0)] at hf
        simp [Histogram.add, hf]
    · have hrL : r = h.bin.length := by
        by_contra hc
        have hrlt : r < h.bin.length := by omega
        exact absurd (habove h.bin.length hrlt (by omega)) (not_lt_of_le ha)
      rcases hcases with ⟨heq, hf⟩ | ⟨hlt, hf⟩ | ⟨hgt, hf⟩
      · rw [hrL, if_neg (lt_irrefl h.bin.length)] at hf
        simp [Histogram.add, hf]
      · rw [hrL, if_neg (lt_irrefl (h.bin.length + 1))] at hf
        simp [Histogram.add, hf]
      · rw [hrL] at hgt
        exact absurd hgt (not_lt_of_le ha)

set_option maxRecDepth 200000 in
/-- Witness for C7: the 10-bin histogram over [0, 100) with sample 25
increments exactly bin 2. -/
theorem c7_witness :
    (Histogram.withConstWidth 10 0 100).add (some 25) =
      some (Except.ok { Histogram.withConstWidth 10 0 100 with
        bin := (Histogram.withConstWidth 10 0 100).bin.set 2
          ((Histogram.withConstWidth 10 0 100).bin.getD 2 0 + 1) }) :=
  (c7_histogram_add (Histogram.withConstWidth 10 0 100) (by decide) (by decide) 25).2.2.1
    2 (by decide) (by decide) (by decide)

lemma add_some_of_find_some (h : Histogram) (x : Option ℚ) (res : Except Unit ℕ)
    (hf : h.find x = some res) : ∃ out, h.add x = some out := by
  unfold Histogram.add
  rw [hf]
  cases res with
  | ok i => exact ⟨_, rfl⟩
  | error e => exact ⟨_, rfl⟩

lemma find_none_eq_none (h : Histogram) (h1 : 1 ≤ h.range.length) :
    h.find none = none := by
  unfold Histogram.find binarySearchBy
  rw [if_neg (by omega)]
  cases hbs : bsLoop h.range (cmpEdge none) h.range.length 0 h.range.length with
  | none => simp only [hbs]
  | some base =>
    simp only [hbs]
    rfl

/-- C10: on a validly-constructed histogram, `find` and `add` terminate
without panic (return a result) for every non-NaN sample: the
`partial_cmp(..).unwrap()` in the binary search never fails there.  A
NaN sample is the one input for which `add` panics (the embedded panic
sentinel `none`) instead of reporting `SampleOutOfRangeError`. -/
theorem c10_find_no_panic (h : Histogram) (hlen : h.range.length = h.bin.length + 1)
    (hsort : List.Sorted (· ≤ ·) h.range) :
    (∀ x : ℚ, ∃ res, h.find (some x) = some res) ∧
    (∀ x : ℚ, ∃ res, h.add (some x) = some res) ∧
    h.find none = none ∧ h.add none = none := by
  have hfind : ∀ x : ℚ, ∃ res, h.find (some x) = some res := by
    intro x
    obtain ⟨r, _, _, _, hcases⟩ := find_spec h hlen hsort x
    rcases hcases with ⟨_, hf⟩ | ⟨_, hf⟩ | ⟨_, hf⟩ <;> exact ⟨_, hf⟩
  have hfn : h.find none = none := find_none_eq_none h (by omega)
  refine ⟨hfind, ?_, hfn, ?_⟩
  · intro x
    obtain ⟨res, hf⟩ := hfind x
    exact add_some_of_find_some h (some x) res hf
  · unfold Histogram.add
    rw [hfn]

/-- Witness for C10 at the 10-bin histogram over [0, 100). -/
theorem c10_witness :
    (∃ res, (Histogram.withConstWidth 10 0 100).find (some 42) = some res) ∧
    (Histogram.withConstWidth 10 0 100).add none = none :=
  ⟨(c10_find_no_panic (Histogram.withConstWidth 10 0 100) (by decide) (by decide)).1 42,
   (c10_find_no_panic (Histogram.withConstWidth 10 0 100) (by decide) (by decide)).2.2.2⟩

/-- C6 as stated is false at p = 0: on the `Moments4` state for
`[1, 2, 3, 4, 5]` the source's `standardized_moment(0)` returns the
sample count 5 (the doc-test asserts `standardized_moment(0) == 5.0`),
while the claimed formula `central_moment(0)/variance^(0/2)` evaluates
to 1/1 = 1. -/
theorem c6_counterexample :
    Moments.stdMoment moments4From1To5 0 ≠ Moments.stdMomentSpec moments4From1To5 0 := by
  have hl : Moments.stdMoment moments4From1To5 0 = some (some ((5 : ℕ) : ℝ)) := rfl
  have hcm0 : Moments.centralMoment moments4From1To5 0 = some 1 := rfl
  have hcm2 : Moments.centralMoment moments4From1To5 2 = some 2 := by decide
  have hr : Moments.stdMomentSpec moments4From1To5 0 =
      some (some (((1 : ℚ) : ℝ) / ((2 : ℚ) : ℝ) ^ (((0 : ℕ) : ℝ) / 2))) := by
    simp only [Moments.stdMomentSpec, hcm2, hcm0]
    rw [if_neg (by norm_num)]
    rfl
  rw [hl, hr]
  intro hcontra
  rw [Option.some_inj, Option.some_inj] at hcontra
  have hz : (((0 : ℕ) : ℝ) / 2) = 0 := by norm_num
  rw [hz, Real.rpow_zero] at hcontra
  norm_num at hcontra

/-- C6 amended: for a non-empty `Moments` estimator, `central_moment(p)`
is `m_p/n` for 2 ≤ p (within the stored orders), 1 for p = 0 and 0 for
p = 1; `standardized_moment(p)` returns the count for p = 0, 0 for
p = 1, 1 for p = 2, and for p ≥ 3 equals
`central_moment(p)/variance^(p/2)` (when the variance is nonnegative, as
for every sample-built state), panicking (assert) exactly when the
variance `central_moment(2)` is 0 and p ≥ 3. -/
theorem c6_moments_queries (s : Moments) (p : ℕ) (hn : 0 < s.n) :
    s.centralMoment 0 = some 1 ∧
    s.centralMoment 1 = some 0 ∧
    (2 ≤ p → s.centralMoment p = some (s.m.getD (p - 2) 0 / (s.n : ℚ))) ∧
    s.stdMoment 0 = some (some (s.n : ℝ)) ∧
    s.stdMoment 1 = some (some 0) ∧
    s.stdMoment 2 = some (some 1) ∧
    (∀ v : ℚ, s.centralMoment 2 = some v → 0 ≤ v → 3 ≤ p →
      s.stdMoment p = s.stdMomentSpec p) ∧
    (s.stdMoment p = none ↔ 3 ≤ p ∧ s.centralMoment 2 = some 0) := by
  have hcm2 : s.centralMoment 2 = some (s.m.getD 0 0 / (s.n : ℚ)) := by
    simp [Moments.centralMoment, hn]
  refine ⟨rfl, rfl, ?_, rfl, rfl, rfl, ?_, ?_⟩
  · intro hp
    obtain ⟨k, rfl⟩ : ∃ k, p = k + 2 := ⟨p - 2, by omega⟩
    simp [Moments.centralMoment, hn]
  · intro v hv hvnn hp
    obtain ⟨k, rfl⟩ : ∃ k, p = k + 3 := ⟨p - 3, by omega⟩
    have key : (Real.sqrt ((v : ℚ) : ℝ)) ^ (k + 3) =
        ((v : ℚ) : ℝ) ^ (((k + 3 : ℕ) : ℝ) / 2) := by
      rw [Real.sqrt_eq_rpow, ← Real.rpow_natCast (((v : ℚ) : ℝ) ^ ((1 : ℝ) / 2)) (k + 3),
        ← Real.rpow_mul (by exact_mod_cast hvnn)]
      congr 1
      push_cast
      ring
    simp only [Moments.stdMoment, Moments.stdMomentSpec, hv]
    by_cases hv0 : v = 0
    · rw [if_pos hv0, if_pos ⟨hv0, by omega⟩]
    · rw [if_neg hv0, if_neg (fun hand => hv0 hand.1)]
      simp only [key]
  · rcases p with _ | _ | _ | k
    · simp [Moments.stdMoment]
    · simp [Moments.stdMoment]
    · simp [Moments.stdMoment]
    · simp only [Moments.stdMoment, hcm2]
      by_cases h0 : s.m.getD 0 0 / (s.n : ℚ) = 0
      · rw [if_pos h0]
        constructor
        · intro _
          exact ⟨by omega, by rw [h0]⟩
        · intro _
          rfl
      · rw [if_neg h0]
        constructor
        · intro hcontra
          exact absurd hcontra (Option.some_ne_none _)
        · rintro ⟨_, hc⟩
          rw [Option.some_inj] at hc
          exact absurd hc h0

/-- Witness for C6 at the `Moments4` state for `[1, 2, 3, 4, 5]` and
p = 3 (variance 2). -/
theorem c6_witness :
    Moments.stdMoment moments4From1To5 3 = Moments.stdMomentSpec moments4From1To5 3 ∧
    Moments.centralMoment moments4From1To5 3 =
      some (moments4From1To5.m.getD 1 0 / ((moments4From1To5.n : ℕ) : ℚ)) :=
  ⟨(c6_moments_queries moments4From1To5 3 (by decide)).2.2.2.2.2.2.1
      2 (by decide) (by norm_num) (by omega),
   (c6_moments_queries moments4From1To5 3 (by decide)).2.2.1 (by omega)⟩

end Average
